import Mathlib

/-!
Verification of the event-driven backtesting engine (files `event.py`,
`data.py`, `goodanalyst.py`) against its natural-language specification.

The Python source is shallowly embedded: plain data classes become Lean
structures, constructors become functions that return the constructed
record, methods become functions on the record (or on the fields they
read), monetary amounts are modelled by the rationals, timestamps by
naturals, and Python exceptions by an `Except` error type.  Runtime
errors that the source can raise (NameError for an undefined variable,
FileNotFoundError from the CSV reader, NotImplementedError from an
abstract method) are explicit `PyError` values.
-/

namespace Backtest

/-- The Python exceptions that the embedded fragments can raise. -/
inductive PyError where
  | nameError (name : String)
  | fileNotFoundError (path : String)
  | notImplementedError
  | noDataError
deriving DecidableEq, Repr

/-! ## event.py -/

/-- `MarketEvent` from event.py: only the discriminant tag, set to
MARKET by the constructor. -/
structure MarketEvent where
  type : String
deriving DecidableEq, Repr

/-- `MarketEvent.__init__` (event.py lines 13-17). -/
def MarketEvent.init : MarketEvent := ⟨"MARKET"⟩

/-- `SignalEvent` from event.py (lines 20-40): tag SIGNAL plus the
strategy id, symbol, timestamp, signal type and strength stored by the
constructor. -/
structure SignalEvent where
  type : String
  strategy : String
  symbol : String
  datetime : Nat
  signal_type : String
  strength : ℚ
deriving DecidableEq, Repr

/-- `SignalEvent.__init__` (event.py lines 25-40). -/
def SignalEvent.init (strategy_id symbol : String) (datetime : Nat)
    (signal_type : String) (strength : ℚ) : SignalEvent :=
  ⟨"SIGNAL", strategy_id, symbol, datetime, signal_type, strength⟩

/-- `FillEvent` from event.py (lines 75-124): tag FILL plus the fill
data and the commission stored by the constructor. -/
structure FillEvent where
  type : String
  timeindex : Nat
  symbol : String
  exchange : String
  quantity : Int
  direction : String
  fill_cost : ℚ
  commission : ℚ
deriving DecidableEq, Repr

/-- `FillEvent.calculate_commission` (event.py lines 112-124).  The
method reads only `self.quantity`, so it is embedded as a function of
the quantity.  The source assigns `full_cost = 1.3` and then overwrites
it on both branches of the `if`, so the final value is the value of the
taken branch. -/
def FillEvent.calculate_commission (quantity : Int) : ℚ :=
  if quantity ≤ 500 then
    max 1.3 (0.0013 * (quantity : ℚ))
  else
    max 1.3 (0.0008 * (quantity : ℚ))

/-- `FillEvent.__init__` (event.py lines 81-110).  The second component
counts how many times the constructor body invoked
`calculate_commission`: the `commission is None` test calls it exactly
once on the `None` branch and never otherwise. -/
def FillEvent.init (timeindex : Nat) (symbol exchange : String)
    (quantity : Int) (direction : String) (fill_cost : ℚ)
    (commission : Option ℚ) : FillEvent × Nat :=
  match commission with
  | none =>
      (⟨"FILL", timeindex, symbol, exchange, quantity, direction, fill_cost,
        FillEvent.calculate_commission quantity⟩, 1)
  | some c =>
      (⟨"FILL", timeindex, symbol, exchange, quantity, direction, fill_cost,
        c⟩, 0)

/-! ## data.py: literal embedding of HistoricCSVDataHandler construction -/

/-- One row of value columns of a parsed bar table, in the column order
given at data.py lines 106-107 after the datetime index column. -/
structure Row where
  open' : ℚ
  high : ℚ
  low : ℚ
  close : ℚ
  volume : ℚ
  adj_close : ℚ
deriving DecidableEq, Repr

/-- The directory of CSV files visible to the handler: a map from file
name to the parsed table (datetime index paired with the value columns)
that the CSV reader would produce for that file. -/
structure CsvDir where
  files : List (String × List (Nat × Row))
deriving DecidableEq, Repr

/-- `pandas.read_csv` applied to a path in the directory (data.py lines
101-107): the parsed table, or FileNotFoundError when no file with that
name exists. -/
def read_csv (csv_dir : CsvDir) (path : String) :
    Except PyError (List (Nat × Row)) :=
  match csv_dir.files.find? (fun p => p.1 == path) with
  | none => .error (.fileNotFoundError path)
  | some p => .ok p.2

/-- Evaluation of a bare Python name inside
`_open_convert_csv_files`.  The only names in scope there are `self`,
`comb_index` and the loop variable `s`; in particular no enclosing
scope of data.py binds the name `symbol` that line 102 interpolates
into the file name, so evaluating it raises NameError. -/
def lookupName (name : String) : Except PyError String :=
  .error (.nameError name)

/-- Insertion into a datetime-sorted row list, used to embed the
`.sort()` call. -/
def insertRow (r : Nat × Row) : List (Nat × Row) → List (Nat × Row)
  | [] => [r]
  | x :: xs => if r.1 ≤ x.1 then r :: x :: xs else x :: insertRow r xs

/-- The `.sort()` call on the loaded table (data.py line 108): rows
sorted by the datetime index, ascending. -/
def sortByDatetime (l : List (Nat × Row)) : List (Nat × Row) :=
  l.foldr insertRow []

/-- Insertion into a sorted duplicate-free index. -/
def insertIndex (t : Nat) : List Nat → List Nat
  | [] => [t]
  | x :: xs =>
      if t < x then t :: x :: xs
      else if t = x then x :: xs
      else x :: insertIndex t xs

/-- `pandas.Index.union` on datetime indexes: the sorted union of the
two indexes without duplicates.  It returns the union as a new index
and does not mutate its receiver. -/
def indexUnion (a b : List Nat) : List Nat :=
  (a ++ b).foldr insertIndex []

/-- data.py lines 110-113: the per-symbol update of `comb_index`.  On
the first symbol, `comb_index` becomes that symbol table index.  On
every later symbol the source evaluates `comb_index.union(...)` - a
call that returns the union as a new index - and discards the returned
value, so `comb_index` keeps its previous value. -/
def combIndexUpdate (comb_index : Option (List Nat)) (idx : List Nat) :
    Option (List Nat) :=
  match comb_index with
  | none => some idx
  | some ci =>
      let _union_result := indexUnion ci idx
      some ci

/-- The most recent row of a datetime-sorted table at or before time t:
the forward-fill lookup that reindexing with method pad performs, or
none when the table has no row at or before t. -/
def padLookup (table : List (Nat × Row)) (t : Nat) : Option Row :=
  ((table.filter (fun r => r.1 ≤ t)).getLast?).map Prod.snd

/-- Reindexing a table onto a target index with forward fill (data.py
lines 118-119): for each timestamp of the target index, the most
recent row of the table at or before it. -/
def reindexPad (table : List (Nat × Row)) (index : List Nat) :
    List (Nat × Option Row) :=
  index.map (fun t => (t, padLookup table t))

/-- The accumulator of the first loop of `_open_convert_csv_files`:
the tables loaded so far, the running `comb_index`, and the empty
revealed histories created at line 115. -/
structure CsvLoopAcc where
  symbol_data : List (String × List (Nat × Row))
  comb_index : Option (List Nat)
  latest_symbol_data : List (String × List (Nat × Option Row))
deriving DecidableEq, Repr

/-- The body of the first loop of `_open_convert_csv_files` (data.py
lines 99-115) for one symbol s: build the file name - which evaluates
the undefined name `symbol`, see `lookupName` - read and sort the
table, update `comb_index`, and create the empty revealed history. -/
def openConvertStep (csv_dir : CsvDir) (acc : CsvLoopAcc) (s : String) :
    Except PyError CsvLoopAcc := do
  let fname ← lookupName "symbol"
  let raw ← read_csv csv_dir (fname ++ ".csv")
  let table := sortByDatetime raw
  pure { symbol_data := acc.symbol_data ++ [(s, table)]
         comb_index := combIndexUpdate acc.comb_index (table.map Prod.fst)
         latest_symbol_data := acc.latest_symbol_data ++ [(s, [])] }

/-- The handler fields as a successful construction would leave them
(data.py lines 76-119): the per-symbol reindexed tables, the empty
revealed histories, and the continuation flag set at line 89. -/
structure InitState where
  symbol_list : List String
  symbol_data : List (String × List (Nat × Option Row))
  latest_symbol_data : List (String × List (Nat × Option Row))
  continue_backtest : Bool
deriving DecidableEq, Repr

/-- `HistoricCSVDataHandler.__init__` together with
`_open_convert_csv_files` (data.py lines 76-119): run the first loop
over the symbol list, then reindex every loaded table onto the final
`comb_index` with forward fill. -/
def open_convert_csv_files (csv_dir : CsvDir) (symbol_list : List String) :
    Except PyError InitState := do
  let acc ← symbol_list.foldlM (openConvertStep csv_dir) ⟨[], none, []⟩
  let comb := acc.comb_index.getD []
  pure { symbol_list := symbol_list
         symbol_data := acc.symbol_data.map (fun p => (p.1, reindexPad p.2 comb))
         latest_symbol_data := acc.latest_symbol_data
         continue_backtest := true }

/-! ## The running historical data provider

The source class `HistoricCSVDataHandler` (data.py lines 70-119)
defines only the constructor and `_open_convert_csv_files`; the stepping
and query methods of the data-provider contract exist in src only as
the abstract declarations of `DataHandler` (data.py lines 23-67), which
raise NotImplementedError.  The concrete methods are therefore modelled
from the spec, sections 4.2 and 8. -/

/-- A bar as held by the running provider: a timestamp of the combined
index paired with the value columns revealed for the symbol there. -/
abbrev Bar := Nat × Row

/-- Modelled from the spec: the per-symbol runtime state of the
historical provider, whose concrete stepping methods are absent from
src.  `remaining` is the not-yet-revealed tail of the reindexed,
time-aligned row sequence built at construction; `revealed` is the
revealed-so-far history (the latest_symbol_data entry), oldest
first. -/
structure SymbolEntry where
  symbol : String
  remaining : List Bar
  revealed : List Bar
deriving DecidableEq, Repr

/-- The runtime state of the historical provider: one entry per
tracked symbol, plus the continuation flag. -/
structure HandlerState where
  entries : List SymbolEntry
  continue_backtest : Bool
deriving DecidableEq, Repr

/-- Advancing one symbol by one bar: move the head of `remaining` to
the end of `revealed`. -/
def SymbolEntry.advance (e : SymbolEntry) : SymbolEntry :=
  ⟨e.symbol, e.remaining.tail, e.revealed ++ e.remaining.take 1⟩

/-- Every tracked symbol still has an unrevealed bar. -/
def HandlerState.canAdvance (st : HandlerState) : Bool :=
  st.entries.all (fun e => !e.remaining.isEmpty)

/-- Every tracked symbol has exhausted its data. -/
def HandlerState.allExhausted (st : HandlerState) : Bool :=
  st.entries.all (fun e => e.remaining.isEmpty)

/-- Modelled from the spec: `update_bars` of the historical provider,
absent from src (only the abstract declaration at data.py lines 60-67
exists).  Spec section 4.2: advance every tracked symbol by exactly one
bar, append it to that symbol revealed-so-far history, then emit
exactly one MarketEvent; set `continue_backtest` to false once all
symbols data is exhausted, and perform no emission and no change on a
call made after exhaustion.  The returned list is what the call put on
the shared event queue. -/
def update_bars (st : HandlerState) : HandlerState × List MarketEvent :=
  if st.canAdvance then
    if HandlerState.allExhausted
        ⟨st.entries.map SymbolEntry.advance, st.continue_backtest⟩ then
      (⟨st.entries.map SymbolEntry.advance, false⟩, [MarketEvent.init])
    else
      (⟨st.entries.map SymbolEntry.advance, st.continue_backtest⟩,
       [MarketEvent.init])
  else
    (⟨st.entries, false⟩, [])

/-- Iterating `update_bars` k times from a state, collecting every
MarketEvent emitted to the queue. -/
def runSteps (st : HandlerState) : Nat → HandlerState × List MarketEvent
  | 0 => (st, [])
  | Nat.succ k =>
      let p := runSteps st k
      let q := update_bars p.1
      (q.1, p.2 ++ q.2)

/-- The entry tracked for a symbol, if any. -/
def HandlerState.findEntry (st : HandlerState) (symbol : String) :
    Option SymbolEntry :=
  st.entries.find? (fun e => e.symbol == symbol)

/-- The bars revealed so far for a symbol, oldest first; empty for an
unknown symbol. -/
def HandlerState.revealedOf (st : HandlerState) (symbol : String) :
    List Bar :=
  match st.findEntry symbol with
  | none => []
  | some e => e.revealed

/-- Modelled from the spec: `get_latest_bars` of the historical
provider, absent from src (only the abstract declaration at data.py
lines 30-35 exists).  Spec sections 4.2 and 8: return up to the last N
revealed bars, oldest first - the last N of the revealed history, or
all of it when fewer than N exist - and fail with NoDataError when no
bar has ever been revealed for the symbol. -/
def get_latest_bars (st : HandlerState) (symbol : String) (N : Nat) :
    Except PyError (List Bar) :=
  match st.findEntry symbol with
  | none => .error .noDataError
  | some e =>
      if e.revealed.isEmpty then .error .noDataError
      else .ok (e.revealed.drop (e.revealed.length - N))

/-! ## goodanalyst.py -/

/-- `FollowStarAnalystStrategy` (goodanalyst.py lines 19-29): the
constructor stores the bar data provider reference and the event queue
reference; the class body contains nothing else. -/
structure FollowStarAnalystStrategy where
  bars : HandlerState
  events : List SignalEvent
deriving Repr

/-- `FollowStarAnalystStrategy.__init__` (goodanalyst.py lines 26-28). -/
def FollowStarAnalystStrategy.init (bars : HandlerState)
    (events : List SignalEvent) : FollowStarAnalystStrategy :=
  ⟨bars, events⟩

/-- Modelled from the spec: the abstract `Strategy` base class is
defined in strategy.py, which is not among the source files.  Following
the abstract-method convention that `DataHandler` uses in data.py
(lines 23-67) and the interface of spec section 6, its market-event
reaction method is abstract and raises NotImplementedError.
`FollowStarAnalystStrategy` overrides nothing - its body after the
constructor is `pass` (goodanalyst.py line 29) - so invoking the
reaction method on an instance raises and can never emit a
SignalEvent. -/
def FollowStarAnalystStrategy.calculate_signals
    (_self : FollowStarAnalystStrategy) (_event : MarketEvent) :
    Except PyError (List SignalEvent) :=
  .error .notImplementedError

/-! ## Sample data used by concrete evaluations -/

/-- A sample row of bar values. -/
def rowA : Row := ⟨10, 12, 9, 11, 1000, 11⟩

/-- A second sample row of bar values. -/
def rowB : Row := ⟨20, 22, 19, 21, 2000, 21⟩

/-- A directory holding the single file AAPL.csv. -/
def dirAAPL : CsvDir := ⟨[("AAPL.csv", [(0, rowA), (1, rowB)])]⟩

/-- A directory holding the single file A.csv. -/
def dirA : CsvDir := ⟨[("A.csv", [(0, rowA)])]⟩

/-- A directory where symbol A has bars at times 0 and 2 only, while
symbol B has bars at times 0, 1 and 2. -/
def dirAB : CsvDir :=
  ⟨[("A.csv", [(0, rowA), (2, rowB)]),
    ("B.csv", [(0, rowA), (1, rowA), (2, rowB)])]⟩

/-- A sample provider state with two bars already revealed for the
symbol A. -/
def stSample : HandlerState :=
  ⟨[⟨"A", [], [(0, rowA), (1, rowB)]⟩], false⟩

/-- Sample per-symbol states for a two-symbol backtest over a combined
index of length two, as left by a successful construction: two
unrevealed bars each, nothing revealed yet. -/
def entriesSample : List SymbolEntry :=
  [⟨"A", [(0, rowA), (1, rowB)], []⟩,
   ⟨"B", [(0, rowB), (1, rowA)], []⟩]

end Backtest

namespace Backtest

/-- Claim C1: for every quantity q the commission computed by
`FillEvent.calculate_commission` equals max(1.30, 0.0013*q) when
q ≤ 500 and max(1.30, 0.0008*q) when q > 500; the boundary q = 500
falls in the ≤ 500 branch of the schedule, and the commission is 1.30
at quantity 1000 and 4.00 at quantity 5000. -/
theorem calculate_commission_schedule (q : Int) :
    FillEvent.calculate_commission q =
      (if q ≤ 500 then max (13/10 : ℚ) (13/10000 * (q : ℚ))
       else max (13/10 : ℚ) (8/10000 * (q : ℚ)))
    ∧ FillEvent.calculate_commission 500 = max (13/10 : ℚ) (13/10000 * 500)
    ∧ FillEvent.calculate_commission 1000 = 13/10
    ∧ FillEvent.calculate_commission 5000 = 4 := by
  refine ⟨?_, ?_, ?_, ?_⟩
  · unfold FillEvent.calculate_commission
    split <;> norm_num
  · unfold FillEvent.calculate_commission
    norm_num
  · unfold FillEvent.calculate_commission
    norm_num
  · unfold FillEvent.calculate_commission
    norm_num

/-- Claim C7: a `FillEvent` constructed without an explicit commission
stores, at construction time, exactly the value returned by
`calculate_commission` for its quantity, and the constructor invokes
the calculator exactly once; the stored field is immutable thereafter,
so it is never recomputed. -/
theorem fillEvent_default_commission (t : Nat) (sym exch : String)
    (q : Int) (dir : String) (fc : ℚ) :
    (FillEvent.init t sym exch q dir fc none).1.commission =
      FillEvent.calculate_commission q
    ∧ (FillEvent.init t sym exch q dir fc none).2 = 1 := by
  exact ⟨rfl, rfl⟩

/-- Claim C9: a `FillEvent` constructed with any non-None commission
value c — including 0 and negative values — stores exactly c and never
invokes the calculator; only None triggers calculation. -/
theorem fillEvent_explicit_commission (t : Nat) (sym exch : String)
    (q : Int) (dir : String) (fc : ℚ) (c : ℚ) :
    (FillEvent.init t sym exch q dir fc (some c)).1.commission = c
    ∧ (FillEvent.init t sym exch q dir fc (some c)).2 = 0
    ∧ (FillEvent.init t sym exch q dir fc (some 0)).1.commission = 0
    ∧ (FillEvent.init t sym exch q dir fc (some (-5))).1.commission = -5 := by
  exact ⟨rfl, rfl, rfl, rfl⟩

/-- Claim C10: `FillEvent.calculate_commission` is a total function of
the quantity and is bounded below by 1.3, for every integer quantity
including zero and negative quantities. -/
theorem calculate_commission_lower_bound (q : Int) :
    (13/10 : ℚ) ≤ FillEvent.calculate_commission q
    ∧ FillEvent.calculate_commission 0 = 13/10
    ∧ FillEvent.calculate_commission (-100) = 13/10 := by
  refine ⟨?_, ?_, ?_⟩
  · unfold FillEvent.calculate_commission
    split
    · exact le_trans (by norm_num) (le_max_left _ _)
    · exact le_trans (by norm_num) (le_max_left _ _)
  · unfold FillEvent.calculate_commission
    norm_num
  · unfold FillEvent.calculate_commission
    norm_num

/-- Claim C4 (code bug): even when the directory contains the file
AAPL.csv, constructing the handler for the symbol list [AAPL] never
reads it: data.py line 102 interpolates the undefined name `symbol`
instead of the loop variable s into the file name, so construction
raises NameError before touching the file system and `symbol_data` is
never populated. -/
theorem open_convert_uses_undefined_name :
    open_convert_csv_files dirAAPL ["AAPL"] = .error (.nameError "symbol") := by
  rfl

/-- Claim C5 (code bug): with symbol A requested and no file A.csv
present, construction fails - but with the NameError of data.py line
102, not a data-not-found error, and it fails with exactly the same
error when A.csv is present, so the failure is independent of whether
the source data exists; no DataNotFoundError is defined or raised
anywhere in the source. -/
theorem missing_csv_not_distinguished :
    open_convert_csv_files ⟨[]⟩ ["A"] = .error (.nameError "symbol")
    ∧ open_convert_csv_files dirA ["A"] = .error (.nameError "symbol")
    ∧ (PyError.nameError "symbol" ≠ PyError.fileNotFoundError "A.csv") := by
  exact ⟨rfl, rfl, by decide⟩

/-- Claim C3 (code bug): construction never completes (NameError at
data.py line 102), so no table is ever reindexed; moreover the
comb_index update of lines 110-113 discards the result of the union
call, so even with the file-name defect repaired, after a first symbol
with times {0, 2} and a second symbol with times {0, 1, 2} the combined
index would be [0, 2] - the index of the first symbol alone - although
the sorted union that the claim requires is [0, 1, 2]. -/
theorem comb_index_union_discarded :
    open_convert_csv_files dirAB ["A", "B"] = .error (.nameError "symbol")
    ∧ combIndexUpdate (combIndexUpdate none [0, 2]) [0, 1, 2] = some [0, 2]
    ∧ indexUnion [0, 2] [0, 1, 2] = [0, 1, 2] := by
  exact ⟨rfl, rfl, by decide⟩

/-- Claim C8 (code bug): the constructor of FollowStarAnalystStrategy
does accept and store a bar data provider reference and an event queue
reference, but the class exposes no market-event reaction method: its
body defines only the constructor, and the reaction method inherited
from the abstract Strategy interface raises NotImplementedError on
every instance and every MarketEvent, so it can never emit a
SignalEvent. -/
theorem followStar_reaction_method_raises (b : HandlerState)
    (e : List SignalEvent) (ev : MarketEvent) :
    (FollowStarAnalystStrategy.init b e).bars = b
    ∧ (FollowStarAnalystStrategy.init b e).events = e
    ∧ FollowStarAnalystStrategy.calculate_signals
        (FollowStarAnalystStrategy.init b e) ev
        = .error .notImplementedError := by
  exact ⟨rfl, rfl, rfl⟩

/-- Claim C6: `get_latest_bars` fails with NoDataError exactly when no
bar has ever been revealed for the symbol, and every successful result
is a suffix of the revealed history - so the bars come back oldest
first with no synthetic padding - of length min(N, number revealed). -/
theorem get_latest_bars_contract (st : HandlerState) (s : String) (N : Nat) :
    (get_latest_bars st s N = .error .noDataError ↔ st.revealedOf s = [])
    ∧ ∀ bs, get_latest_bars st s N = .ok bs →
        bs.length = min N (st.revealedOf s).length
        ∧ bs <:+ st.revealedOf s := by
  rcases h : st.findEntry s with _ | e
  · constructor
    · simp [get_latest_bars, HandlerState.revealedOf, h]
    · intro bs hbs
      simp [get_latest_bars, h] at hbs
  · by_cases hrev : e.revealed = []
    · constructor
      · simp [get_latest_bars, HandlerState.revealedOf, h, hrev]
      · intro bs hbs
        simp [get_latest_bars, h, hrev] at hbs
    · have hne : e.revealed.isEmpty = false := List.isEmpty_eq_false.mpr hrev
      constructor
      · constructor
        · intro hcon
          simp [get_latest_bars, h, hne] at hcon
        · intro hcon
          simp only [HandlerState.revealedOf, h] at hcon
          exact absurd hcon hrev
      · intro bs hbs
        rw [get_latest_bars, h] at hbs
        simp only [hne, Bool.false_eq_true, if_false, Except.ok.injEq] at hbs
        subst hbs
        simp only [HandlerState.revealedOf, h]
        constructor
        · rw [List.length_drop]
          omega
        · exact List.drop_suffix _ _

/-- Witness for claim C6: on the sample state, asking for five bars of
the symbol A returns the two revealed bars, whose length is min(5, 2)
and which form a suffix of the revealed history. -/
theorem get_latest_bars_contract_check :
    get_latest_bars stSample "A" 5 = .ok [(0, rowA), (1, rowB)]
    ∧ ([(0, rowA), (1, rowB)] : List Bar).length
        = min 5 (stSample.revealedOf "A").length
    ∧ ([(0, rowA), (1, rowB)] : List Bar) <:+ stSample.revealedOf "A" := by
  refine ⟨rfl, ?_⟩
  exact (get_latest_bars_contract stSample "A" 5).2 [(0, rowA), (1, rowB)] rfl

/-- Advancing a symbol that has revealed the first k of its bars makes
it a symbol that has revealed the first k+1 of its bars. -/
theorem advance_comp_shift (k : Nat) :
    (SymbolEntry.advance ∘ fun e : SymbolEntry =>
        ⟨e.symbol, e.remaining.drop k, e.revealed ++ e.remaining.take k⟩)
      = fun e : SymbolEntry =>
          ⟨e.symbol, e.remaining.drop (k + 1),
           e.revealed ++ e.remaining.take (k + 1)⟩ := by
  funext e
  simp only [Function.comp, SymbolEntry.advance]
  rw [List.tail_drop, List.take_add e.remaining k 1, ← List.append_assoc]

/-- One aligned step: from the state in which every tracked symbol has
revealed the first k of its N bars, `update_bars` advances every symbol
to k+1 revealed bars, emits exactly one MarketEvent, and leaves the
continuation flag true exactly while unrevealed bars remain. -/
theorem update_bars_aligned (entries0 : List SymbolEntry) (N k : Nat)
    (hne : entries0 ≠ []) (hlen : ∀ e ∈ entries0, e.remaining.length = N)
    (hk : k < N) :
    update_bars
        ⟨entries0.map (fun e =>
          ⟨e.symbol, e.remaining.drop k, e.revealed ++ e.remaining.take k⟩),
         true⟩
      = (⟨entries0.map (fun e =>
            ⟨e.symbol, e.remaining.drop (k + 1),
             e.revealed ++ e.remaining.take (k + 1)⟩),
          decide (k + 1 < N)⟩,
         [MarketEvent.init]) := by
  have hcan : HandlerState.canAdvance
      ⟨entries0.map (fun e =>
        ⟨e.symbol, e.remaining.drop k, e.revealed ++ e.remaining.take k⟩),
       true⟩ = true := by
    unfold HandlerState.canAdvance
    simp only [List.all_map, List.all_eq_true, Function.comp]
    intro e he
    have hl := hlen e he
    rw [Bool.not_eq_true', List.isEmpty_eq_false]
    intro hc
    have hlc := congrArg List.length hc
    rw [List.length_drop, hl] at hlc
    simp only [List.length_nil] at hlc
    omega
  have hmap : (entries0.map (fun e =>
        (⟨e.symbol, e.remaining.drop k,
          e.revealed ++ e.remaining.take k⟩ : SymbolEntry))).map
          SymbolEntry.advance
      = entries0.map (fun e =>
          ⟨e.symbol, e.remaining.drop (k + 1),
           e.revealed ++ e.remaining.take (k + 1)⟩) := by
    rw [List.map_map, advance_comp_shift]
  have hex : HandlerState.allExhausted
      ⟨entries0.map (fun e =>
        ⟨e.symbol, e.remaining.drop (k + 1),
         e.revealed ++ e.remaining.take (k + 1)⟩),
       true⟩ = decide (N ≤ k + 1) := by
    unfold HandlerState.allExhausted
    simp only [List.all_map, Function.comp]
    rcases Nat.lt_or_ge (k + 1) N with hlt | hge
    · have h1 : decide (N ≤ k + 1) = false := by
        simp only [decide_eq_false_iff_not]
        omega
      rw [h1, List.all_eq_false]
      obtain ⟨e0, rest, hsplit⟩ := List.exists_cons_of_ne_nil hne
      refine ⟨e0, by rw [hsplit]; exact List.mem_cons_self _ _, ?_⟩
      have hl := hlen e0 (by rw [hsplit]; exact List.mem_cons_self _ _)
      show ¬(e0.remaining.drop (k + 1)).isEmpty = true
      rw [List.isEmpty_eq_true]
      intro hc
      have hlc := congrArg List.length hc
      rw [List.length_drop, hl] at hlc
      simp only [List.length_nil] at hlc
      omega
    · have h1 : decide (N ≤ k + 1) = true := decide_eq_true hge
      rw [h1, List.all_eq_true]
      intro e he
      have hl := hlen e he
      show (e.remaining.drop (k + 1)).isEmpty = true
      rw [List.isEmpty_eq_true]
      exact List.drop_eq_nil_of_le (by omega)
  unfold update_bars
  rw [hcan]
  simp only [if_true]
  rw [hmap]
  rw [hex]
  rcases Nat.lt_or_ge (k + 1) N with hlt | hge
  · have h1 : decide (N ≤ k + 1) = false := by
      simp only [decide_eq_false_iff_not]
      omega
    have h2 : decide (k + 1 < N) = true := decide_eq_true hlt
    rw [h1, h2]
    simp only [Bool.false_eq_true, if_false]
  · have h1 : decide (N ≤ k + 1) = true := decide_eq_true hge
    have h2 : decide (k + 1 < N) = false := by
      simp only [decide_eq_false_iff_not]
      omega
    rw [h1, h2]
    simp only [if_true]

/-- The provider state and the emitted MarketEvents after k aligned
calls of `update_bars`, for k up to the length of the data. -/
theorem runSteps_invariant (entries0 : List SymbolEntry) (N : Nat)
    (hne : entries0 ≠ []) (hN : 0 < N)
    (hlen : ∀ e ∈ entries0, e.remaining.length = N) :
    ∀ k, k ≤ N →
      runSteps ⟨entries0, true⟩ k
        = (⟨entries0.map (fun e =>
              ⟨e.symbol, e.remaining.drop k, e.revealed ++ e.remaining.take k⟩),
            decide (k < N)⟩,
           List.replicate k MarketEvent.init) := by
  intro k
  induction k with
  | zero =>
      intro _
      have hid : entries0.map (fun e : SymbolEntry =>
          (⟨e.symbol, e.remaining.drop 0,
            e.revealed ++ e.remaining.take 0⟩ : SymbolEntry)) = entries0 := by
        have hfun : (fun e : SymbolEntry =>
            (⟨e.symbol, e.remaining.drop 0,
              e.revealed ++ e.remaining.take 0⟩ : SymbolEntry)) = id := by
          funext e
          simp
        rw [hfun, List.map_id]
      have hdec : decide (0 < N) = true := decide_eq_true hN
      rw [runSteps, hid, hdec]
      rfl
  | succ k ih =>
      intro hk1
      have hk : k < N := by omega
      have hdec : decide (k < N) = true := decide_eq_true hk
      simp only [runSteps]
      rw [ih (by omega), hdec]
      simp only []
      rw [update_bars_aligned entries0 N k hne hlen hk]
      rw [← List.replicate_succ']

/-- Claim C2: from a freshly constructed provider over a combined index
of length N - every tracked symbol holds N aligned unrevealed bars and
an empty revealed history - each of the first N calls of `update_bars`
advances every symbol by exactly one bar, appends it to the revealed
history of that symbol, and emits exactly one MarketEvent; after
exactly N calls the continuation flag is false, and the call N+1 emits
no MarketEvent and changes nothing. -/
theorem update_bars_run (entries0 : List SymbolEntry) (N : Nat)
    (hne : entries0 ≠ []) (hN : 0 < N)
    (hlen : ∀ e ∈ entries0, e.remaining.length = N)
    (hrev : ∀ e ∈ entries0, e.revealed = []) :
    (∀ k, k ≤ N →
      (runSteps ⟨entries0, true⟩ k).1.entries
          = entries0.map (fun e =>
              ⟨e.symbol, e.remaining.drop k, e.remaining.take k⟩)
        ∧ (runSteps ⟨entries0, true⟩ k).1.continue_backtest = decide (k < N)
        ∧ (runSteps ⟨entries0, true⟩ k).2 = List.replicate k MarketEvent.init)
    ∧ runSteps ⟨entries0, true⟩ (N + 1) = runSteps ⟨entries0, true⟩ N := by
  have hinv := runSteps_invariant entries0 N hne hN hlen
  constructor
  · intro k hk
    rw [hinv k hk]
    refine ⟨?_, rfl, rfl⟩
    apply List.map_congr_left
    intro e he
    rw [hrev e he]
    rfl
  · have hcanf : HandlerState.canAdvance
        ⟨entries0.map (fun e =>
          ⟨e.symbol, e.remaining.drop N, e.revealed ++ e.remaining.take N⟩),
         false⟩ = false := by
      unfold HandlerState.canAdvance
      simp only [List.all_map, Function.comp]
      rw [List.all_eq_false]
      obtain ⟨e0, rest, hsplit⟩ := List.exists_cons_of_ne_nil hne
      refine ⟨e0, by rw [hsplit]; exact List.mem_cons_self _ _, ?_⟩
      have hl := hlen e0 (by rw [hsplit]; exact List.mem_cons_self _ _)
      have hnil : e0.remaining.drop N = [] :=
        List.drop_eq_nil_of_le (by omega)
      simp [hnil]
    have hdecN : decide (N < N) = false := by
      simp only [decide_eq_false_iff_not]
      omega
    simp only [runSteps]
    rw [hinv N le_rfl, hdecN]
    simp only []
    unfold update_bars
    rw [hcanf]
    simp

/-- Witness for claim C2: a concrete two-symbol backtest over a
combined index of length two: after two calls the continuation flag is
false and exactly two MarketEvents were emitted; a third call changes
nothing and emits nothing. -/
theorem update_bars_run_check :
    entriesSample ≠ [] ∧ (0 : Nat) < 2
    ∧ (∀ e ∈ entriesSample, e.remaining.length = 2)
    ∧ (∀ e ∈ entriesSample, e.revealed = [])
    ∧ (runSteps ⟨entriesSample, true⟩ 2).1.continue_backtest = false
    ∧ (runSteps ⟨entriesSample, true⟩ 2).2 = List.replicate 2 MarketEvent.init
    ∧ runSteps ⟨entriesSample, true⟩ 3 = runSteps ⟨entriesSample, true⟩ 2 := by
  have h := update_bars_run entriesSample 2 (by decide) (by decide)
    (by decide) (by decide)
  refine ⟨by decide, by decide, by decide, by decide, ?_, ?_, h.2⟩
  · rw [(h.1 2 le_rfl).2.1]
    rfl
  · exact (h.1 2 le_rfl).2.2

end Backtest
